import Mathlib

/-!
Shallow embedding of `src/irc.py` (a minimal IRC client/bot): the wire-line
parser (`IRC_Message.__init__`), the stream buffering (`_read_buffer`,
`IRC_Client.read`), the outbound formatting helpers, the byte-send path
(`IRC_Client.send`), and the dispatch engine (`Bot.run`,
`Bot.__call_function`, `Bot.__call_on_privmsg`).

Python strings are modelled as Lean `String`s, with the string operations
the source uses (split, join, indexing, slicing) re-implemented over the
underlying character lists so that they compute by kernel reduction.
A Python value that may be `None` is an `Option`; an uncaught Python
exception is the `error` branch of `Except String` (the string names the
exception class), or the `raised` branch of `PyOutcome`.  Blocking socket
reads are modelled by a chunk stream `Nat → List Nat` (the bytes each
successive `recv` returns) plus explicit fuel: a fuel-indexed result of
`none` for every fuel means the loop never finishes.
-/

namespace Irc

/-- Rendering of a Python value in an f-string: `None` renders as "None". -/
def pyStr : Option String → String
  | none => "None"
  | some s => s

/-- Python `s.split(c)` for a one-character separator: empty pieces are kept. -/
def splitChar (c : Char) : List Char → List (List Char)
  | [] => [[]]
  | x :: xs =>
    if x = c then [] :: splitChar c xs
    else
      match splitChar c xs with
      | [] => [[x]]
      | g :: gs => (x :: g) :: gs

/-- Python `s.split(c)` lifted to `String`. -/
def pySplitC (c : Char) (s : String) : List String :=
  (splitChar c s.data).map String.mk

/-- Python `s.split("\r\n")` (leftmost-first two-character separator). -/
def splitCRLF : List Char → List (List Char)
  | [] => [[]]
  | '\r' :: '\n' :: rest => [] :: splitCRLF rest
  | x :: rest =>
    match splitCRLF rest with
    | [] => [[x]]
    | g :: gs => (x :: g) :: gs

/-- Python `s[1:]`. -/
def pyDrop1 (s : String) : String := String.mk (s.data.drop 1)

/-- Python `s[0]` on a string the caller has checked to be nonempty. -/
def pyFirst (s : String) : Char := s.data.headD (Char.ofNat 0)

/-- Python `' '.join(pieces)`, over character lists. -/
def joinSpace : List (List Char) → List Char
  | [] => []
  | [x] => x
  | x :: xs => x ++ ' ' :: joinSpace xs

/-- Python `' '.join(ws)` on strings. -/
def pyJoinSpace (ws : List String) : String := String.mk (joinSpace (ws.map String.data))

/-- One character of Python `s.encode('utf-8')`, as natural-number bytes. -/
def utf8EncodeCharNat (c : Char) : List Nat :=
  let n := c.toNat
  if n < 128 then [n]
  else if n < 2048 then [192 + n / 64, 128 + n % 64]
  else if n < 65536 then [224 + n / 4096, 128 + n / 64 % 64, 128 + n % 64]
  else [240 + n / 262144, 128 + n / 4096 % 64, 128 + n / 64 % 64, 128 + n % 64]

/-- Python `s.encode('utf-8')` as a byte list. -/
def encodeUtf8 (s : String) : List Nat := s.data.flatMap utf8EncodeCharNat

/-- Whether a byte is a UTF-8 continuation byte. -/
def isCont (b : Nat) : Bool := decide (128 ≤ b) && decide (b < 192)

/-- Python `bytes.decode('utf-8')`: `none` models a `UnicodeDecodeError`. -/
def utf8DecodeList : List Nat → Option (List Char)
  | [] => some []
  | b0 :: rest =>
    if b0 < 128 then (utf8DecodeList rest).map (fun cs => Char.ofNat b0 :: cs)
    else if b0 < 194 then none
    else if b0 < 224 then
      match rest with
      | b1 :: rest1 =>
        if isCont b1 then
          (utf8DecodeList rest1).map (fun cs => Char.ofNat ((b0 - 192) * 64 + (b1 - 128)) :: cs)
        else none
      | [] => none
    else if b0 < 240 then
      match rest with
      | b1 :: b2 :: rest2 =>
        if isCont b1 ∧ isCont b2 ∧ (b0 = 224 → 160 ≤ b1) ∧ (b0 = 237 → b1 < 160) then
          (utf8DecodeList rest2).map
            (fun cs => Char.ofNat ((b0 - 224) * 4096 + (b1 - 128) * 64 + (b2 - 128)) :: cs)
        else none
      | _ => none
    else if b0 < 245 then
      match rest with
      | b1 :: b2 :: b3 :: rest3 =>
        if isCont b1 ∧ isCont b2 ∧ isCont b3 ∧ (b0 = 240 → 144 ≤ b1) ∧ (b0 = 244 → b1 < 144) then
          (utf8DecodeList rest3).map
            (fun cs =>
              Char.ofNat ((b0 - 240) * 262144 + (b1 - 128) * 4096 + (b2 - 128) * 64 + (b3 - 128)) :: cs)
        else none
      | _ => none
    else none

/-- Python `bytes.decode('utf-8')` producing a `String`. -/
def decodeUtf8 (b : List Nat) : Option String := (utf8DecodeList b).map String.mk

/-- Last character of a string (`None` when empty). -/
def lastChar (s : String) : Option Char := s.data.getLast?

/-- The parsed message record built by `IRC_Message.__init__`; the source
field `prefix` is called `pfx` here, `message` is the messageBody. -/
structure IRC_Message where
  pfx      : Option String
  nickname : Option String
  command  : Option String
  middle   : Option String
  trailing : Option String
  message  : Option String
deriving DecidableEq

/-- Source `if prefix is not None and '!' in prefix: nickname = prefix.split('!')[0][1:]`. -/
def deriveNickname : Option String → Option String
  | none => none
  | some p => if p.data.contains '!' then some (pyDrop1 ((pySplitC '!' p).headD "")) else none

/-- Source `if command is not None and len(w) > w.index(command) + 1: middle = w[w.index(command)+1]`.
`List.indexOf` is the first occurrence, exactly like Python `list.index`. -/
def deriveMiddle (w : List String) (command : String) : Option String :=
  let i := w.indexOf command
  if i + 1 < w.length then some (w.getD (i + 1) "") else none

/-- Source `if middle is not None and len(w) > w.index(middle) + 1: trailing = ' '.join(w[w.index(middle) + 1:])`. -/
def deriveTrailing (w : List String) (middle : String) : Option String :=
  let j := w.indexOf middle
  if j + 1 < w.length then some (pyJoinSpace (w.drop (j + 1))) else none

/-- `IRC_Message.__init__` after `w = s.split(' ')`: the `.error` branch is the
uncaught `IndexError` raised by `w[0][0]` when the first token is empty. -/
def parseTokens (w : List String) : Except String IRC_Message :=
  match w with
  | w0 :: w1 :: _ =>
    if w0 = "" then .error "IndexError"
    else
      let pc : Option String × String :=
        if pyFirst w0 = ':' then (some w0, w1) else (none, w0)
      let middle := deriveMiddle w pc.2
      let trailing := middle.bind (deriveTrailing w)
      .ok ⟨pc.1, deriveNickname pc.1, some pc.2, middle, trailing, trailing.map pyDrop1⟩
  | _ => .ok ⟨none, none, none, none, none, none⟩

/-- `IRC_Message.__init__` on one raw line. -/
def parseMessage (s : String) : Except String IRC_Message :=
  parseTokens (pySplitC ' ' s)

/-- Index of the command token in the token list: 1 when the first token is a
server/user origin marker (leading ':'), else 0. -/
def cmdPos (w0 : String) : Nat := if pyFirst w0 = ':' then 1 else 0

/-- `IRC_Client.pong`: the string handed to `send`. -/
def pongString (s : String) : String := "PONG " ++ s ++ "\r\n"

/-- `IRC_Client.privmsg`: the string handed to `send`. -/
def privmsgString (channel message : String) : String :=
  "PRIVMSG " ++ channel ++ " " ++ message ++ "\r\n"

/-- `IRC_Client.nick`: the string handed to `send`. -/
def nickString (nickname : String) : String := "NICK " ++ nickname ++ "\r\n"

/-- `IRC_Client.user`: the string handed to `send` (exactly as in the source,
which builds `f'USER {username} {mode} * :{fullname}'`). -/
def userString (username : String) (mode : Int) (fullname : String) : String :=
  "USER " ++ username ++ " " ++ toString mode ++ " * :" ++ fullname

/-- `IRC_Client.join`: the string handed to `send`. -/
def joinString (channel : String) : String := "JOIN " ++ channel ++ "\r\n"

/-- Result of calling one registered handler `f(self, msg)`: either a normal
return (`None` or a reply string) or a raised exception whose `repr` is `e`. -/
inductive HandlerResult where
  | ok (r : Option String)
  | exn (e : String)
deriving DecidableEq

/-- A registered handler: an id (so invocations can be observed) and its
behaviour on the parsed message. -/
structure Handler where
  hid : Nat
  run : IRC_Message → HandlerResult

/-- Observable actions of the engine: bytes handed to `send`, and handler
invocations. -/
inductive Event where
  | send (s : String)
  | call (hid : Nat)
deriving DecidableEq

/-- The bot state dispatch reads: configured channel, trigger character
(`bang`, a string as in the source), ordered bang-command registrations, and
the generic PRIVMSG handlers. -/
structure Bot where
  channel : String
  bang : String
  functions : List (String × Handler)
  on_privmsg : List Handler

/-- Events of one handler invocation inside the engine's try/except: the call
itself, then the PRIVMSG reply when the result (or the exception repr) is not
`None`. -/
def invokeEvents (rt : Option String) (f : Handler) (msg : IRC_Message) : List Event :=
  match f.run msg with
  | .ok none => [.call f.hid]
  | .ok (some r) => [.call f.hid, .send (privmsgString (pyStr rt) r)]
  | .exn e => [.call f.hid, .send (privmsgString (pyStr rt) e)]

/-- The loop body of `Bot.__call_function`: on the first registration whose
name differs from the bang word it RETURNS (dropping the rest of the list),
exactly as the source does. -/
def callFunctionLoop (word : String) (msg : IRC_Message) (rt : Option String) :
    List (String × Handler) → List Event
  | [] => []
  | (b, f) :: rest =>
    if word ≠ b then []
    else invokeEvents rt f msg ++ callFunctionLoop word msg rt rest

/-- `Bot.__call_function`: `msg.message[0]` raises `TypeError` when the body is
`None` and `IndexError` when it is empty; otherwise the loop runs with the
word `msg.message.split(' ')[0][1:]`. -/
def callFunction (bot : Bot) (msg : IRC_Message) (rt : Option String) :
    Except String (List Event) :=
  match msg.message with
  | none => .error "TypeError"
  | some m =>
    if m = "" then .error "IndexError"
    else if String.mk [pyFirst m] ≠ bot.bang then .ok []
    else .ok (callFunctionLoop (pyDrop1 ((pySplitC ' ' m).headD "")) msg rt bot.functions)

/-- `Bot.__call_on_privmsg`: every generic handler is invoked in order, each
inside its own try/except. -/
def callOnPrivmsgList (hs : List Handler) (msg : IRC_Message) (rt : Option String) :
    List Event :=
  match hs with
  | [] => []
  | f :: rest => invokeEvents rt f msg ++ callOnPrivmsgList rest msg rt

/-- One iteration of the routing `match` in `Bot.run` for a single message.
For a PRIVMSG, `msg.middle[0]` raises `TypeError`/`IndexError` when `middle`
is `None`/empty; otherwise the reply target is `middle` when it starts with
'#', else the sender's nickname. -/
def dispatchOne (bot : Bot) (msg : IRC_Message) : Except String (List Event) :=
  match msg.command with
  | some c =>
    if c = "PING" then .ok [.send (pongString (pyStr msg.middle))]
    else if c = "001" then .ok [.send (joinString bot.channel)]
    else if c = "PRIVMSG" then
      match msg.middle with
      | none => .error "TypeError"
      | some mid =>
        if mid = "" then .error "IndexError"
        else
          let rt := if pyFirst mid = '#' then some mid else msg.nickname
          match callFunction bot msg rt with
          | .error e => .error e
          | .ok evs => .ok (evs ++ callOnPrivmsgList bot.on_privmsg msg rt)
    else .ok []
  | none => .ok []

/-- The `for msg in self.messages` loop of `Bot.run`; an uncaught exception
aborts the loop. -/
def runMessages (bot : Bot) : List IRC_Message → Except String (List Event)
  | [] => .ok []
  | m :: rest =>
    match dispatchOne bot m with
    | .error e => .error e
    | .ok evs =>
      match runMessages bot rest with
      | .error e => .error e
      | .ok evs2 => .ok (evs ++ evs2)

/-- Outcome of a Python call: a raised exception or a value. -/
inductive PyOutcome (α : Type) where
  | raised (e : String)
  | val (a : α)
deriving DecidableEq

/-- The `while buf[-1] != b'\n'[0]: buf += sock.recv(1024)` loop of
`_read_buffer`, with the successive `recv` results given by `chunks` (the
i-th call returns `chunks i`) and explicit fuel; `none` means the fuel ran
out with the loop still spinning. -/
def readBufferLoop (chunks : Nat → List Nat) (fuel : Nat) (i : Nat) (buf : List Nat) :
    Option (List Nat) :=
  if buf.getLast? = some 10 then some buf
  else
    match fuel with
    | 0 => none
    | f + 1 => readBufferLoop chunks f (i + 1) (buf ++ chunks i)

/-- `_read_buffer(sock)`: a first zero-byte `recv` returns `None`
(end-of-stream); otherwise the loop accumulates until the buffer ends in a
line feed and the bytes are decoded as UTF-8. -/
def readBuffer (chunks : Nat → List Nat) (fuel : Nat) :
    Option (PyOutcome (Option String)) :=
  if (chunks 0).length < 1 then some (.val none)
  else
    match readBufferLoop chunks fuel 1 (chunks 0) with
    | none => none
    | some b =>
      match decodeUtf8 b with
      | none => some (.raised "UnicodeDecodeError")
      | some s => some (.val (some s))

/-- The `buf.split('\r\n')[:-1]` step of `IRC_Client.read`. -/
def clientLines (buf : String) : List String :=
  ((splitCRLF buf.data).map String.mk).dropLast

/-- `IRC_Client.read` down to the raw line list it stores: `[]` on
end-of-stream, otherwise the split-and-drop-last of the decoded buffer. -/
def clientRead (chunks : Nat → List Nat) (fuel : Nat) :
    Option (PyOutcome (List String)) :=
  match readBuffer chunks fuel with
  | none => none
  | some (.raised e) => some (.raised e)
  | some (.val none) => some (.val [])
  | some (.val (some buf)) => some (.val (clientLines buf))

/-- A transport write: `budget` says how many bytes one `socket.send` call
actually transmits; the call transmits a prefix of the supplied bytes. -/
def socketSendOnce (budget : List Nat → Nat) (data : List Nat) : List Nat :=
  data.take (budget data)

/-- `IRC_Client.send`: a single `self.__socket.send(s.encode('utf-8'))` whose
return value is ignored — the bytes actually transmitted. -/
def clientSend (budget : List Nat → Nat) (s : String) : List Nat :=
  socketSendOnce budget (encodeUtf8 s)

/-- Concrete handler registered under the name "foo". -/
def c1h1 : Handler := ⟨1, fun _ => .ok (some "one")⟩

/-- Concrete handler registered under the name "bar". -/
def c1h2 : Handler := ⟨2, fun _ => .ok (some "two")⟩

/-- The parse of `":n!u@h PRIVMSG #c :!bar x"`. -/
def c1msg : IRC_Message :=
  ⟨some ":n!u@h", some "n", some "PRIVMSG", some "#c", some ":!bar x", some "!bar x"⟩

/-- Bot with bang registrations ("foo", h1) then ("bar", h2). -/
def botA : Bot := ⟨"#c", "!", [("foo", c1h1), ("bar", c1h2)], []⟩

/-- Bot with bang registrations ("bar", h2) then ("foo", h1). -/
def botB : Bot := ⟨"#c", "!", [("bar", c1h2), ("foo", c1h1)], []⟩

/-- A bot with no registered handlers. -/
def c2bot : Bot := ⟨"#chan", "!", [], []⟩

/-- A well-formed inbound PRIVMSG (middle "#c", body "hi"). -/
def c2msg : IRC_Message :=
  ⟨some ":n!u@h", some "n", some "PRIVMSG", some "#c", some ":hi", some "hi"⟩

/-- A generic handler whose invocation raises, with repr "ZeroDivisionError". -/
def c5fail : Handler := ⟨7, fun _ => .exn "ZeroDivisionError"⟩

/-- A second, independently registered generic handler; it returns a reply. -/
def c5ok : Handler := ⟨8, fun _ => .ok (some "still here")⟩

/-- Bot whose generic handlers are the failing one then the healthy one. -/
def c5bot : Bot := ⟨"#chan", "!", [], [c5fail, c5ok]⟩

/-- A well-formed inbound PRIVMSG used to exercise failure isolation. -/
def c5msg : IRC_Message :=
  ⟨some ":n!u@h", some "n", some "PRIVMSG", some "#c", some ":hi", some "hi"⟩

/-- The parse of `":n!u@h PRIVMSG #c :hi"`. -/
def c6msg : IRC_Message :=
  ⟨some ":n!u@h", some "n", some "PRIVMSG", some "#c", some ":hi", some "hi"⟩

/-- Transport that yields "abc" and then only zero-byte reads (peer closed
after a partial, unterminated line). -/
def c7bad : Nat → List Nat := fun i => if i = 0 then encodeUtf8 "abc" else []

/-- Transport yielding "PRIVMSG #a :hi\r" and then "\n". -/
def c8chunks : Nat → List Nat :=
  fun i => if i = 0 then encodeUtf8 "PRIVMSG #a :hi\r" else if i = 1 then encodeUtf8 "\n" else []

/-! ### Helper lemmas -/

/-- Appending a string whose last character is known does not change the last
character of the concatenation. -/
theorem lastChar_append_right (a b : String) (c : Char) (h : lastChar b = some c) :
    lastChar (a ++ b) = some c := by
  unfold lastChar at h ⊢
  rw [String.data_append]
  rw [List.getLast?_append_of_ne_nil]
  · exact h
  · intro hb
    rw [hb] at h
    simp at h

/-- The generic-handler loop distributes over list append. -/
theorem callOnPrivmsgList_append (hs1 hs2 : List Handler) (msg : IRC_Message)
    (rt : Option String) :
    callOnPrivmsgList (hs1 ++ hs2) msg rt =
      callOnPrivmsgList hs1 msg rt ++ callOnPrivmsgList hs2 msg rt := by
  induction hs1 with
  | nil => simp [callOnPrivmsgList]
  | cons f rest ih => simp [callOnPrivmsgList, ih]

/-- Every generic handler in the list is invoked by `__call_on_privmsg`. -/
theorem call_mem_callOnPrivmsgList (hs : List Handler) (msg : IRC_Message)
    (rt : Option String) :
    ∀ g ∈ hs, Event.call g.hid ∈ callOnPrivmsgList hs msg rt := by
  induction hs with
  | nil => simp
  | cons f rest ih =>
    intro g hg
    unfold callOnPrivmsgList
    rcases List.mem_cons.mp hg with h | h
    · subst h
      apply List.mem_append_left
      cases hr : g.run msg with
      | ok r => cases r <;> simp [invokeEvents, hr]
      | exn e => simp [invokeEvents, hr]
    · exact List.mem_append_right _ (ih g h)

/-- A message whose dispatch succeeds does not abort the `for` loop of
`Bot.run`: the remaining messages are still processed. -/
theorem runMessages_cons_ok (bot : Bot) (m : IRC_Message) (rest : List IRC_Message)
    (evs : List Event) (h : dispatchOne bot m = .ok evs) :
    runMessages bot (m :: rest) = (runMessages bot rest).map (fun t => evs ++ t) := by
  conv_lhs => rw [runMessages]
  rw [h]
  cases hr : runMessages bot rest <;> simp [hr, Except.map]

/-- When the accumulation loop of `_read_buffer` finishes, the buffer ends in
the line-feed byte. -/
theorem readBufferLoop_last (chunks : Nat → List Nat) (fuel : Nat) :
    ∀ i buf r, readBufferLoop chunks fuel i buf = some r → r.getLast? = some 10 := by
  induction fuel with
  | zero =>
    intro i buf r h
    unfold readBufferLoop at h
    by_cases hb : buf.getLast? = some 10
    · rw [if_pos hb] at h
      cases h
      exact hb
    · rw [if_neg hb] at h
      cases h
  | succ f ih =>
    intro i buf r h
    unfold readBufferLoop at h
    by_cases hb : buf.getLast? = some 10
    · rw [if_pos hb] at h
      cases h
      exact hb
    · rw [if_neg hb] at h
      exact ih (i + 1) (buf ++ chunks i) r h

/-- Parsing a token list of two or more tokens succeeds whenever the first
token is nonempty (the only raise in `IRC_Message.__init__` is `w[0][0]`). -/
theorem parseTokens_ok_of_ne_empty (w0 w1 : String) (rest : List String) (hw0 : w0 ≠ "") :
    ∃ m, parseTokens (w0 :: w1 :: rest) = .ok m :=
  ⟨_, by simp only [parseTokens, if_neg hw0]; rfl⟩

/-- Routing one already-parsed message never raises provided a PRIVMSG
carries a nonempty middle and a nonempty messageBody; command-less and
unrecognized messages yield no events. -/
theorem dispatchOne_total_of_wellformed_privmsg (bot : Bot) (msg : IRC_Message)
    (hpriv : msg.command = some "PRIVMSG" →
      (∃ mid, msg.middle = some mid ∧ mid ≠ "") ∧ ∃ b, msg.message = some b ∧ b ≠ "") :
    (∃ evs, dispatchOne bot msg = .ok evs) ∧
    (msg.command = none → dispatchOne bot msg = .ok []) ∧
    (∀ c, msg.command = some c → c ≠ "PING" → c ≠ "001" → c ≠ "PRIVMSG" →
      dispatchOne bot msg = .ok []) := by
  refine ⟨?_, ?_, ?_⟩
  · cases hc : msg.command with
    | none => exact ⟨[], by simp [dispatchOne, hc]⟩
    | some c =>
      by_cases h1 : c = "PING"
      · exact ⟨[Event.send (pongString (pyStr msg.middle))], by simp [dispatchOne, hc, h1]⟩
      · by_cases h2 : c = "001"
        · exact ⟨[Event.send (joinString bot.channel)], by simp [dispatchOne, hc, h1, h2]⟩
        · by_cases h3 : c = "PRIVMSG"
          · subst h3
            obtain ⟨⟨mid, hmid, hmid0⟩, b, hb, hb0⟩ := hpriv hc
            have hcf : ∃ evs0, callFunction bot msg
                (if pyFirst mid = '#' then some mid else msg.nickname) = .ok evs0 := by
              simp only [callFunction, hb]
              rw [if_neg hb0]
              by_cases hbang : String.mk [pyFirst b] ≠ bot.bang
              · exact ⟨[], by rw [if_pos hbang]⟩
              · exact ⟨_, by rw [if_neg hbang]⟩
            obtain ⟨evs0, hcf⟩ := hcf
            exact ⟨evs0 ++ callOnPrivmsgList bot.on_privmsg msg
                (if pyFirst mid = '#' then some mid else msg.nickname),
              by simp [dispatchOne, hc, hmid, hmid0, hcf]⟩
          · exact ⟨[], by simp [dispatchOne, hc, h1, h2, h3]⟩
  · intro hc
    simp [dispatchOne, hc]
  · intro c hc h1 h2 h3
    simp [dispatchOne, hc, h1, h2, h3]

/-- On the after-partial-accumulation-closed transport, the `_read_buffer`
while loop never exits, no matter how many iterations it is allowed. -/
theorem c7_loop_spins (fuel : Nat) : ∀ i, 1 ≤ i →
    readBufferLoop c7bad fuel i (encodeUtf8 "abc") = none := by
  induction fuel with
  | zero =>
    intro i _
    unfold readBufferLoop
    rw [if_neg (by decide)]
  | succ f ih =>
    intro i hi
    unfold readBufferLoop
    rw [if_neg (by decide)]
    have hc : c7bad i = [] := by
      unfold c7bad
      rw [if_neg (by omega)]
    rw [hc, List.append_nil]
    exact ih (i + 1) (by omega)

/-! ### Claim theorems -/

/-- Claim C1 (code bug, evaluated at the failing input): the loop in
`Bot.__call_function` RETURNS at the first registration whose name does not
match the bang word, so with registrations ("foo", h1) then ("bar", h2) and
body "!bar x" no handler at all is invoked, while the reversed registration
order does invoke h2 — dispatch is not the claimed order-independent
full scan. -/
theorem c1_first_nonmatch_aborts_scan :
    parseMessage ":n!u@h PRIVMSG #c :!bar x" = .ok c1msg ∧
    dispatchOne botA c1msg = .ok [] ∧
    dispatchOne botB c1msg = .ok [Event.call 2, Event.send "PRIVMSG #c two\r\n"] :=
  ⟨rfl, rfl, rfl⟩

/-- Claim C2 (counterexample): the inbound line ":x PRIVMSG" parses to a
PRIVMSG whose middle is absent, and routing it in `Bot.run` raises an
uncaught TypeError (from `msg.middle[0]`) instead of silently dropping it. -/
theorem c2_privmsg_without_middle_raises :
    Except.bind (parseMessage ":x PRIVMSG") (dispatchOne c2bot) = .error "TypeError" := rfl

/-- Claim C2 (amended): one full dispatch pass — parsing the line and routing
the resulting Message — completes without raising and silently drops lines
with fewer than two tokens or unrecognized commands, EXCEPT that (i) a line
with two or more tokens whose first token is empty raises IndexError while
parsing, and (ii) a PRIVMSG whose middle is absent/empty or whose messageBody
is absent/empty raises while routing; under hypotheses excluding exactly
those two shapes, the pass is proved raise-free, and the parse-stage raise
of (i) is exhibited on " PING x". -/
theorem c2_line_pass_total_unless_malformed (bot : Bot) (line : String)
    (hfirst : 2 ≤ (pySplitC ' ' line).length → (pySplitC ' ' line).headD "" ≠ "")
    (hpriv : ∀ m, parseMessage line = .ok m → m.command = some "PRIVMSG" →
      (∃ mid, m.middle = some mid ∧ mid ≠ "") ∧ ∃ b, m.message = some b ∧ b ≠ "") :
    (∃ m evs, parseMessage line = .ok m ∧ dispatchOne bot m = .ok evs ∧
      Except.bind (parseMessage line) (dispatchOne bot) = .ok evs) ∧
    (∀ m, parseMessage line = .ok m → m.command = none → dispatchOne bot m = .ok []) ∧
    (∀ m c, parseMessage line = .ok m → m.command = some c →
      c ≠ "PING" → c ≠ "001" → c ≠ "PRIVMSG" → dispatchOne bot m = .ok []) ∧
    (∀ bot2 : Bot, Except.bind (parseMessage " PING x") (dispatchOne bot2) =
      .error "IndexError") := by
  have hparse : ∃ m, parseMessage line = .ok m := by
    unfold parseMessage
    cases hw : pySplitC ' ' line with
    | nil => exact ⟨⟨none, none, none, none, none, none⟩, rfl⟩
    | cons a tail =>
      cases tail with
      | nil => exact ⟨⟨none, none, none, none, none, none⟩, rfl⟩
      | cons b rest =>
        have h2 : 2 ≤ (pySplitC ' ' line).length := by
          rw [hw]
          simp only [List.length_cons]
          omega
        have ha : a ≠ "" := by
          have hh := hfirst h2
          rw [hw] at hh
          simpa using hh
        obtain ⟨m, hm⟩ := parseTokens_ok_of_ne_empty a b rest ha
        exact ⟨m, hm⟩
  obtain ⟨m, hm⟩ := hparse
  obtain ⟨⟨evs, hevs⟩, hnone, hother⟩ :=
    dispatchOne_total_of_wellformed_privmsg bot m (fun hcmd => hpriv m hm hcmd)
  refine ⟨⟨m, evs, hm, hevs, by rw [hm]; exact hevs⟩, ?_, ?_, fun bot2 => rfl⟩
  · intro m2 hm2 hcom
    rw [hm, Except.ok.injEq] at hm2
    subst hm2
    exact hnone hcom
  · intro m2 c hm2 hcom h1 h2 h3
    rw [hm, Except.ok.injEq] at hm2
    subst hm2
    exact hother c hcom h1 h2 h3

/-- Witness for claim C2's amended theorem, at a concrete well-formed line. -/
theorem c2_line_pass_total_unless_malformed_witness :
    (∃ m evs, parseMessage ":n!u@h PRIVMSG #c :hi" = .ok m ∧
      dispatchOne c2bot m = .ok evs ∧
      Except.bind (parseMessage ":n!u@h PRIVMSG #c :hi") (dispatchOne c2bot) = .ok evs) ∧
    (∀ m, parseMessage ":n!u@h PRIVMSG #c :hi" = .ok m → m.command = none →
      dispatchOne c2bot m = .ok []) ∧
    (∀ m c, parseMessage ":n!u@h PRIVMSG #c :hi" = .ok m → m.command = some c →
      c ≠ "PING" → c ≠ "001" → c ≠ "PRIVMSG" → dispatchOne c2bot m = .ok []) ∧
    (∀ bot2 : Bot, Except.bind (parseMessage " PING x") (dispatchOne bot2) =
      .error "IndexError") :=
  c2_line_pass_total_unless_malformed c2bot ":n!u@h PRIVMSG #c :hi" (by decide)
    (by
      intro m hm _
      rw [show parseMessage ":n!u@h PRIVMSG #c :hi" = .ok c2msg from rfl,
        Except.ok.injEq] at hm
      subst hm
      exact ⟨⟨"#c", rfl, by decide⟩, "hi", rfl, by decide⟩)

/-- Claim C3 (code bug, evaluated at the failing input): pong, privmsg, nick
and join all send strings terminated by the CRLF line terminator, but
`user(...)` builds exactly `USER <user> <mode> * :<realname>` with no
terminator — its last character is the last character of the realname. -/
theorem c3_user_missing_crlf :
    (∀ s, lastChar (pongString s) = some '\n') ∧
    (∀ c m, lastChar (privmsgString c m) = some '\n') ∧
    (∀ n, lastChar (nickString n) = some '\n') ∧
    (∀ c, lastChar (joinString c) = some '\n') ∧
    userString "u" 0 "f" = "USER u 0 * :f" ∧
    lastChar (userString "u" 0 "f") = some 'f' ∧
    ('f' : Char) ≠ '\n' := by
  refine ⟨?_, ?_, ?_, ?_, rfl, by decide, by decide⟩
  · intro s
    exact lastChar_append_right _ "\r\n" '\n' (by decide)
  · intro c m
    exact lastChar_append_right _ "\r\n" '\n' (by decide)
  · intro n
    exact lastChar_append_right _ "\r\n" '\n' (by decide)
  · intro c
    exact lastChar_append_right _ "\r\n" '\n' (by decide)

/-- Claim C4 (code bug, evaluated at the failing input): `send` performs a
single `socket.send` call and ignores its return value; on a transport that
transmits only one byte per call, sending "ab" transmits only the byte of
'a', not all encoded bytes. -/
theorem c4_single_send_drops_bytes :
    encodeUtf8 "ab" = [97, 98] ∧
    clientSend (fun _ => 1) "ab" = [97] ∧
    clientSend (fun _ => 1) "ab" ≠ encodeUtf8 "ab" :=
  ⟨rfl, rfl, by decide⟩

/-- Claim C5: an invoked handler that raises is caught by the engine, the
textual description (repr) of the failure is sent as a PRIVMSG reply to the
computed reply target, every remaining generic handler is still invoked
afterward, and the dispatch loop proceeds to the remaining messages; the
same catch-and-reply holds for a matching bang-command handler. -/
theorem c5_handler_failure_isolated (bot : Bot) (msg : IRC_Message)
    (mid body e : String) (rt : Option String)
    (pre post : List Handler) (hf : Handler)
    (hcmd : msg.command = some "PRIVMSG")
    (hmid : msg.middle = some mid) (hmid0 : mid ≠ "")
    (hbody : msg.message = some body) (hbody0 : body ≠ "")
    (hrt : rt = if pyFirst mid = '#' then some mid else msg.nickname)
    (hon : bot.on_privmsg = pre ++ hf :: post)
    (hexn : hf.run msg = .exn e) :
    (∃ evs0, callFunction bot msg rt = .ok evs0 ∧
      dispatchOne bot msg = .ok (evs0 ++
        (callOnPrivmsgList pre msg rt ++
          Event.call hf.hid :: Event.send (privmsgString (pyStr rt) e) ::
            callOnPrivmsgList post msg rt))) ∧
    (∀ g ∈ post, Event.call g.hid ∈ callOnPrivmsgList post msg rt) ∧
    (∀ rest evs, dispatchOne bot msg = .ok evs →
      runMessages bot (msg :: rest) = (runMessages bot rest).map (fun t => evs ++ t)) ∧
    (∀ (nm : String) (hb : Handler) (frest : List (String × Handler)) (e2 : String),
      hb.run msg = .exn e2 →
      callFunctionLoop nm msg rt ((nm, hb) :: frest) =
        Event.call hb.hid :: Event.send (privmsgString (pyStr rt) e2) ::
          callFunctionLoop nm msg rt frest) := by
  have hlist : callOnPrivmsgList bot.on_privmsg msg rt =
      callOnPrivmsgList pre msg rt ++
        Event.call hf.hid :: Event.send (privmsgString (pyStr rt) e) ::
          callOnPrivmsgList post msg rt := by
    rw [hon, callOnPrivmsgList_append]
    have hinv : invokeEvents rt hf msg =
        [Event.call hf.hid, Event.send (privmsgString (pyStr rt) e)] := by
      unfold invokeEvents
      rw [hexn]
    congr 1
    show invokeEvents rt hf msg ++ callOnPrivmsgList post msg rt = _
    rw [hinv]
    rfl
  have hcf : ∃ evs0, callFunction bot msg rt = .ok evs0 := by
    simp only [callFunction, hbody]
    rw [if_neg hbody0]
    by_cases hbang : String.mk [pyFirst body] ≠ bot.bang
    · exact ⟨[], by rw [if_pos hbang]⟩
    · exact ⟨_, by rw [if_neg hbang]⟩
  obtain ⟨evs0, hcf⟩ := hcf
  refine ⟨⟨evs0, hcf, ?_⟩, call_mem_callOnPrivmsgList post msg rt,
    fun rest evs h => runMessages_cons_ok bot msg rest evs h, ?_⟩
  · rw [← hlist]
    subst hrt
    simp [dispatchOne, hcmd, hmid, hmid0, hcf]
  · intro nm hb frest e2 he2
    have hstep : callFunctionLoop nm msg rt ((nm, hb) :: frest) =
        if nm ≠ nm then [] else invokeEvents rt hb msg ++ callFunctionLoop nm msg rt frest := rfl
    rw [hstep, if_neg (by simp)]
    unfold invokeEvents
    rw [he2]
    rfl

/-- Witness for claim C5, on a bot whose generic handlers are a raising one
followed by a healthy one. -/
theorem c5_handler_failure_isolated_witness :
    (∃ evs0, callFunction c5bot c5msg (some "#c") = .ok evs0 ∧
      dispatchOne c5bot c5msg = .ok (evs0 ++
        (callOnPrivmsgList [] c5msg (some "#c") ++
          Event.call c5fail.hid ::
            Event.send (privmsgString (pyStr (some "#c")) "ZeroDivisionError") ::
            callOnPrivmsgList [c5ok] c5msg (some "#c")))) ∧
    (∀ g ∈ [c5ok], Event.call g.hid ∈ callOnPrivmsgList [c5ok] c5msg (some "#c")) ∧
    (∀ rest evs, dispatchOne c5bot c5msg = .ok evs →
      runMessages c5bot (c5msg :: rest) =
        (runMessages c5bot rest).map (fun t => evs ++ t)) ∧
    (∀ (nm : String) (hb : Handler) (frest : List (String × Handler)) (e2 : String),
      hb.run c5msg = .exn e2 →
      callFunctionLoop nm c5msg (some "#c") ((nm, hb) :: frest) =
        Event.call hb.hid :: Event.send (privmsgString (pyStr (some "#c")) e2) ::
          callFunctionLoop nm c5msg (some "#c") frest) :=
  c5_handler_failure_isolated c5bot c5msg "#c" "hi" "ZeroDivisionError" (some "#c")
    [] [c5ok] c5fail rfl rfl (by decide) rfl (by decide) rfl rfl rfl

/-- Claim C6 (amended): middle is the token immediately following command and
trailing is the tokens after middle rejoined with single spaces, PROVIDED the
first occurrence of the command token is at the command's own position and
the first occurrence of the middle token is at the position just after it
(the source locates both with `list.index`, i.e. first occurrence);
messageBody is always trailing minus its first character. -/
theorem c6_derivation_at_first_occurrence (w0 w1 : String) (rest : List String)
    (m : IRC_Message)
    (hw0 : w0 ≠ "")
    (hm : parseTokens (w0 :: w1 :: rest) = .ok m)
    (hc : (w0 :: w1 :: rest).indexOf (if pyFirst w0 = ':' then w1 else w0) = cmdPos w0) :
    m.command = some (if pyFirst w0 = ':' then w1 else w0) ∧
    m.middle = (if cmdPos w0 + 1 < (w0 :: w1 :: rest).length
      then some ((w0 :: w1 :: rest).getD (cmdPos w0 + 1) "") else none) ∧
    (∀ mid, m.middle = some mid →
      (w0 :: w1 :: rest).indexOf mid = cmdPos w0 + 1 →
      m.trailing = (if cmdPos w0 + 1 + 1 < (w0 :: w1 :: rest).length
        then some (pyJoinSpace ((w0 :: w1 :: rest).drop (cmdPos w0 + 1 + 1))) else none)) ∧
    m.message = m.trailing.map pyDrop1 := by
  by_cases hp : pyFirst w0 = ':'
  · have hcp : cmdPos w0 = 1 := by
      unfold cmdPos
      rw [if_pos hp]
    rw [if_pos hp] at hc
    simp only [parseTokens, if_neg hw0, if_pos hp] at hm
    rw [Except.ok.injEq] at hm
    subst hm
    refine ⟨by simp [hp], ?_, ?_, rfl⟩
    · show deriveMiddle (w0 :: w1 :: rest) w1 = _
      unfold deriveMiddle
      rw [hc, hcp]
    · intro mid hmid hidxm
      replace hmid : deriveMiddle (w0 :: w1 :: rest) w1 = some mid := hmid
      show (deriveMiddle (w0 :: w1 :: rest) w1).bind (deriveTrailing (w0 :: w1 :: rest)) = _
      rw [hmid]
      show deriveTrailing (w0 :: w1 :: rest) mid = _
      unfold deriveTrailing
      rw [hidxm]
  · have hcp : cmdPos w0 = 0 := by
      unfold cmdPos
      rw [if_neg hp]
    rw [if_neg hp] at hc
    simp only [parseTokens, if_neg hw0, if_neg hp] at hm
    rw [Except.ok.injEq] at hm
    subst hm
    refine ⟨by simp [hp], ?_, ?_, rfl⟩
    · show deriveMiddle (w0 :: w1 :: rest) w0 = _
      unfold deriveMiddle
      rw [hc, hcp]
    · intro mid hmid hidxm
      replace hmid : deriveMiddle (w0 :: w1 :: rest) w0 = some mid := hmid
      show (deriveMiddle (w0 :: w1 :: rest) w0).bind (deriveTrailing (w0 :: w1 :: rest)) = _
      rw [hmid]
      show deriveTrailing (w0 :: w1 :: rest) mid = _
      unfold deriveTrailing
      rw [hidxm]

/-- Witness for claim C6's amended theorem, at the duplicate-free token list
of ":n!u@h PRIVMSG #c :hi". -/
theorem c6_derivation_at_first_occurrence_witness :
    c6msg.command = some (if pyFirst ":n!u@h" = ':' then "PRIVMSG" else ":n!u@h") ∧
    c6msg.middle = (if cmdPos ":n!u@h" + 1 < ([":n!u@h", "PRIVMSG", "#c", ":hi"] : List String).length
      then some (([":n!u@h", "PRIVMSG", "#c", ":hi"] : List String).getD (cmdPos ":n!u@h" + 1) "")
      else none) ∧
    (∀ mid, c6msg.middle = some mid →
      ([":n!u@h", "PRIVMSG", "#c", ":hi"] : List String).indexOf mid = cmdPos ":n!u@h" + 1 →
      c6msg.trailing = (if cmdPos ":n!u@h" + 1 + 1 < ([":n!u@h", "PRIVMSG", "#c", ":hi"] : List String).length
        then some (pyJoinSpace (([":n!u@h", "PRIVMSG", "#c", ":hi"] : List String).drop (cmdPos ":n!u@h" + 1 + 1)))
        else none)) ∧
    c6msg.message = c6msg.trailing.map pyDrop1 :=
  c6_derivation_at_first_occurrence ":n!u@h" "PRIVMSG" ["#c", ":hi"] c6msg
    (by decide) rfl (by decide)

/-- Claim C6 (counterexample): in "PING PING x" the middle token equals the
command token; the spec derivation demands trailing = "x" (the tokens after
middle rejoined), but the first-occurrence `list.index` lookup yields
trailing "PING x". -/
theorem c6_duplicate_token_counterexample :
    parseMessage "PING PING x" =
      .ok ⟨none, none, some "PING", some "PING", some "PING x", some "ING x"⟩ ∧
    pyJoinSpace ((["PING", "PING", "x"] : List String).drop 2) = "x" ∧
    some "PING x" ≠ some "x" :=
  ⟨rfl, rfl, by decide⟩

/-- Claim C7 (code bug, evaluated at the failing input): a zero-byte FIRST
read does report end-of-stream and yields no lines, but after a partial
(unterminated) accumulation a peer close does NOT end the read: the
`_read_buffer` while loop re-calls recv forever (no fuel suffices). -/
theorem c7_eos_first_read_but_loop_spins_after_partial :
    (∀ fuel, readBuffer (fun _ => []) fuel = some (PyOutcome.val none)) ∧
    (∀ fuel, clientRead (fun _ => []) fuel = some (PyOutcome.val [])) ∧
    (∀ fuel, readBuffer c7bad fuel = none) ∧
    (∀ fuel, clientRead c7bad fuel = none) := by
  have h3 : ∀ fuel, readBuffer c7bad fuel = none := by
    intro fuel
    unfold readBuffer
    rw [if_neg (by decide)]
    rw [show c7bad 0 = encodeUtf8 "abc" from rfl]
    rw [c7_loop_spins fuel 1 (by omega)]
  exact ⟨fun _ => rfl, fun _ => rfl, h3, fun fuel => by unfold clientRead; rw [h3 fuel]⟩

/-- Claim C8: reads accumulate until the last byte is the line feed, the
buffer is decoded as UTF-8 and split on CRLF with the trailing empty element
discarded; the two reads "PRIVMSG #a :hi\r" then "\n" yield exactly the one
line "PRIVMSG #a :hi". -/
theorem c8_crlf_line_reassembly :
    (∀ chunks fuel i buf r, readBufferLoop chunks fuel i buf = some r →
      r.getLast? = some 10) ∧
    readBuffer c8chunks 2 = some (PyOutcome.val (some "PRIVMSG #a :hi\r\n")) ∧
    clientLines "PRIVMSG #a :hi\r\n" = ["PRIVMSG #a :hi"] ∧
    clientRead c8chunks 2 = some (PyOutcome.val ["PRIVMSG #a :hi"]) :=
  ⟨fun chunks fuel => readBufferLoop_last chunks fuel, rfl, rfl, rfl⟩

/-- Witness for claim C8's accumulation conjunct, at a loop that stops at
once on a buffer already ending in the line feed. -/
theorem c8_crlf_line_reassembly_witness : ([10] : List Nat).getLast? = some 10 :=
  c8_crlf_line_reassembly.1 (fun _ => []) 0 0 [10] [10] rfl

/-- Claim C9: parsing ":nick!user@host PRIVMSG #chan :hello world" yields
exactly the claimed six fields. -/
theorem c9_privmsg_parse :
    parseMessage ":nick!user@host PRIVMSG #chan :hello world" =
      .ok ⟨some ":nick!user@host", some "nick", some "PRIVMSG", some "#chan",
           some ":hello world", some "hello world"⟩ := rfl

/-- Claim C10: EVERY line that splits into fewer than two tokens parses to
the all-absent Message, and dispatching the all-absent Message performs no
action for any bot: no built-in routing fires and no handler is invoked. -/
theorem c10_single_token_all_absent (s : String)
    (h : (pySplitC ' ' s).length < 2) :
    parseMessage s = .ok ⟨none, none, none, none, none, none⟩ ∧
    ∀ bot : Bot, dispatchOne bot ⟨none, none, none, none, none, none⟩ = .ok [] := by
  constructor
  · unfold parseMessage
    cases hw : pySplitC ' ' s with
    | nil => rfl
    | cons a tail =>
      cases tail with
      | nil => rfl
      | cons b rest =>
        rw [hw] at h
        simp only [List.length_cons] at h
        omega
  · intro bot
    rfl

/-- Witness for claim C10, at the single-token line "NOOP". -/
theorem c10_single_token_all_absent_witness :
    (pySplitC ' ' "NOOP").length < 2 ∧
    (parseMessage "NOOP" = .ok ⟨none, none, none, none, none, none⟩ ∧
     ∀ bot : Bot, dispatchOne bot ⟨none, none, none, none, none, none⟩ = .ok []) :=
  ⟨by decide, c10_single_token_all_absent "NOOP" (by decide)⟩

end Irc
